import Mathlib

/-!
Shallow embedding of `src/mqtt/main/main.c` (esp-idf-mirf MQTT bridge
example): the WiFi attach event handler and `wifi_init_sta`, the mDNS
helpers `query_mdns_host` / `convert_mdns_host`, and the radio-side
`receiver` / `sender` task loops, together with theorems about them.

Strings are modelled as `List Char`, byte buffers as `List Nat`, and the
external collaborators (mDNS query, radio transceiver, message buffers)
as explicit oracle parameters giving the values the C calls return.
-/

namespace Mirf

/-- Result codes of `esp_err_t` as actually returned by the functions in
`main.c` (`query_mdns_host` and `wifi_init_sta` return only `ESP_OK` or
`ESP_FAIL`). -/
inductive EspErr
  | ok
  | fail
  deriving DecidableEq, Repr

/-- Log severities of the `ESP_LOGx` macros used in `main.c`. -/
inductive LogLevel
  | debug
  | info
  | warn
  | error
  deriving DecidableEq, Repr

/-- Outcome of the external call `mdns_query_a(host_name, 10000, &addr)`:
either an IPv4 address (kept here already formatted, abstracting the
`sprintf(ip, IPSTR, IP2STR(&addr))` step), `ESP_ERR_NOT_FOUND` (which the
mdns component also uses for a query that times out), or any other nonzero
error code. -/
inductive MdnsQueryResult
  | found (addr : List Char)
  | notFound
  | otherError
  deriving DecidableEq, Repr

/-- `query_mdns_host` in `main.c`: on `mdns_query_a` success it writes the
formatted address and returns `ESP_OK`; on `ESP_ERR_NOT_FOUND` it returns
`ESP_FAIL`; on any other error it also returns `ESP_FAIL`. -/
def query_mdns_host : MdnsQueryResult → EspErr
  | .found _ => .ok
  | .notFound => .fail
  | .otherError => .fail

/-- The address `query_mdns_host` writes into its `ip` output buffer
(`none` when it fails and leaves the buffer unwritten). -/
def query_mdns_host_ip : MdnsQueryResult → Option (List Char)
  | .found addr => some addr
  | .notFound => none
  | .otherError => none

/-- The severity of the diagnostic `query_mdns_host` logs on failure:
`ESP_LOGW` ("Host was not found!") for `ESP_ERR_NOT_FOUND`, `ESP_LOGE`
("Query Failed") for any other error, nothing on success. -/
def query_mdns_host_errLog : MdnsQueryResult → Option LogLevel
  | .found _ => none
  | .notFound => some .warn
  | .otherError => some .error

/-- `query_mdns_host r = ESP_OK` exactly when the mdns query resolved. -/
theorem query_mdns_host_eq_ok_iff (r : MdnsQueryResult) :
    query_mdns_host r = .ok ↔ ∃ a, r = .found a := by
  cases r <;> simp [query_mdns_host]

/-- C `strstr`: index of the first occurrence of `needle` in `hay`,
`none` when there is no occurrence. -/
def strstrIdx (hay needle : List Char) : Option Nat :=
  match hay with
  | [] => if needle.isEmpty then some 0 else none
  | _ :: t =>
    if needle.isPrefixOf hay then some 0
    else (strstrIdx t needle).map (· + 1)

/-- The literal `".local"` that `convert_mdns_host` searches for. -/
def localSuffix : List Char := ".local".toList

/-- `convert_mdns_host(from, to)` in `main.c`, as the function from the
input string (and an oracle `resolve` giving what `mdns_query_a` returns
for each queried host name) to the contents of the `to` buffer:
`strcpy(to, from)`; find the first occurrence of `".local"` with `strstr`
(if absent, return); truncate `_from` at that occurrence; call
`query_mdns_host(_from, _ip)`; if it did not return `ESP_OK`, return
(leaving `to = from`); otherwise `strcpy(to, _ip)`. -/
def convert_mdns_host (resolve : List Char → MdnsQueryResult)
    (s : List Char) : List Char :=
  match strstrIdx s localSuffix with
  | none => s
  | some idx =>
    match resolve (s.take idx) with
    | .found ip => ip
    | .notFound => s
    | .otherError => s

/-! ### Network attach (`event_handler` and `wifi_init_sta`) -/

/-- The events `event_handler` in `main.c` dispatches on:
`WIFI_EVENT_STA_START`, `WIFI_EVENT_STA_DISCONNECTED`,
`IP_EVENT_STA_GOT_IP`. -/
inductive WifiEvent
  | staStart
  | staDisconnected
  | staGotIp
  deriving DecidableEq, Repr

/-- The mutable state `event_handler` touches: `s_retry_num`, the two
event-group bits `WIFI_CONNECTED_BIT` / `WIFI_FAIL_BIT`, plus a count of
the `esp_wifi_connect()` calls it has issued (to observe connection
attempts). -/
structure WifiState where
  retryNum : Nat
  connectedBit : Bool
  failBit : Bool
  connectCalls : Nat
  deriving DecidableEq, Repr

/-- State at the start of `wifi_init_sta`: `s_retry_num = 0`, the freshly
created event group has no bits set, no `esp_wifi_connect()` issued yet. -/
def initWifiState : WifiState := ⟨0, false, false, 0⟩

/-- One dispatch of `event_handler` in `main.c`:
on `STA_START`, call `esp_wifi_connect()`;
on `STA_DISCONNECTED`, if `s_retry_num < CONFIG_ESP_MAXIMUM_RETRY` call
`esp_wifi_connect()` and increment `s_retry_num`, else set `WIFI_FAIL_BIT`;
on `GOT_IP`, reset `s_retry_num` to 0 and set `WIFI_CONNECTED_BIT`.
`maxRetry` is `CONFIG_ESP_MAXIMUM_RETRY`. -/
def event_handler (maxRetry : Nat) (s : WifiState) : WifiEvent → WifiState
  | .staStart => { s with connectCalls := s.connectCalls + 1 }
  | .staDisconnected =>
    if s.retryNum < maxRetry then
      { s with retryNum := s.retryNum + 1, connectCalls := s.connectCalls + 1 }
    else
      { s with failBit := true }
  | .staGotIp => { s with retryNum := 0, connectedBit := true }

/-- `xEventGroupWaitBits(_, WIFI_CONNECTED_BIT | WIFI_FAIL_BIT, ...)` has
something to return: one of the two terminal bits is set. -/
def terminalBits (s : WifiState) : Bool := s.connectedBit || s.failBit

/-- The handler consuming an event sequence during one `wifi_init_sta`
call. `xEventGroupWaitBits` (with `portMAX_DELAY`) returns as soon as a
terminal bit is set, after which `wifi_init_sta` unregisters both handler
instances, so events arriving after a terminal bit are not processed. -/
def runAttach (maxRetry : Nat) (s : WifiState) : List WifiEvent → WifiState
  | [] => s
  | e :: es =>
    if terminalBits s then s
    else runAttach maxRetry (event_handler maxRetry s e) es

/-- The branch at the end of `wifi_init_sta` on the bits returned by
`xEventGroupWaitBits`: `WIFI_CONNECTED_BIT` is tested first and yields
`ESP_OK`; otherwise `WIFI_FAIL_BIT` yields `ESP_FAIL`; the remaining
"UNEXPECTED EVENT" branch also yields `ESP_FAIL`. -/
def attach_result_bits (connectedBit failBit : Bool) : EspErr :=
  if connectedBit then .ok
  else if failBit then .fail
  else .fail

/-- `wifi_init_sta` driven by an event sequence: run the handler until a
terminal bit is set, then report as the C code does. `none` models the
call never returning (with `portMAX_DELAY` the wait blocks forever if no
terminal bit is ever set). -/
def wifi_init_sta (maxRetry : Nat) (events : List WifiEvent) : Option EspErr :=
  let s := runAttach maxRetry initWifiState events
  if terminalBits s then some (attach_result_bits s.connectedBit s.failBit)
  else none

/-- The event sequence of claim C3: `k` disconnects then address acquired. -/
def attachEvents (k : Nat) : List WifiEvent :=
  List.replicate k .staDisconnected ++ [.staGotIp]

/-! ### Receiver task -/

/-- The fixed per-message item size: `size_t xItemSize = 32` in `main.c`
(also the radio payload width, `uint8_t payload = 32`). -/
def xItemSize : Nat := 32

/-- C `strlen` on the receive buffer: length of the longest zero-free
prefix. (In C, a 32-byte frame with no zero byte would make `strlen` read
past the buffer; the model caps the scan at the end of the frame.) -/
def strlen (buf : List Nat) : Nat := (buf.takeWhile (fun b => b ≠ 0)).length

/-- What one data-ready iteration of the `receiver` loop does. -/
structure RecvStep where
  /-- The bytes handed to `xMessageBufferSend` (`none`: no data ready). -/
  sent : Option (List Nat)
  /-- Whether the loop proceeds to the next iteration (`false` = `break`,
  after which the task deletes itself). -/
  next : Bool
  deriving DecidableEq, Repr

/-- One iteration of the main loop of `receiver` in `main.c`: if
`Nrf24_dataReady`, drain one frame into `buf` with `Nrf24_getData`,
compute `rxLen = strlen((char *)buf)`, send `rxLen` bytes of `buf` with
`xMessageBufferSend(xMessageBufferTrans, buf, rxLen, 100)`; if the
returned count `sended` differs from `rxLen`, log an error and `break`.
`frame` is the 32-byte frame `Nrf24_getData` wrote; `sended` is what
`xMessageBufferSend` returned. -/
def receiver_step (dataReady : Bool) (frame : List Nat) (sended : Nat) :
    RecvStep :=
  if dataReady then
    let rxLen := strlen frame
    { sent := some (frame.take rxLen), next := sended == rxLen }
  else
    { sent := none, next := true }

/-! ### Sender task -/

/-- Overwriting the front of `buf` with `msg`, leaving the rest of `buf`
unchanged: the effect of `xMessageBufferReceive` copying a received
message into the caller's buffer. -/
def writeInto (buf msg : List Nat) : List Nat := msg ++ buf.drop msg.length

/-- The frame `sender` hands to `Nrf24_send`: the buffer is `memset` to
zero (all `xItemSize` bytes), then `xMessageBufferReceive` writes the
received message into its front. -/
def sender_frame (msg : List Nat) : List Nat :=
  writeInto (List.replicate xItemSize 0) msg

/-- The observable actions of the `sender` loop body. -/
inductive SenderAction
  | memsetBuf
  | recvMsg (msg : List Nat)
  | nrfSend (frame : List Nat)
  | logOutcome (ok : Bool)
  deriving DecidableEq, Repr

/-- One iteration of the main loop of `sender` in `main.c`:
`memset(buf, 0x00, xItemSize)`; block on `xMessageBufferReceive` for the
next message `msg`; `Nrf24_send(&dev, buf)`; wait `Nrf24_isSend(&dev,
1000)` and log "Send success" or "Send fail" accordingly. Nothing in the
body breaks or returns, so the loop always proceeds. `isSendOk` is what
`Nrf24_isSend` returned. -/
def sender_cycle (msg : List Nat) (isSendOk : Bool) : List SenderAction :=
  [.memsetBuf, .recvMsg msg, .nrfSend (sender_frame msg),
   .logOutcome isSendOk]

/-- The `sender` loop over a sequence of (received message, transmit
outcome) pairs. -/
def sender_run : List (List Nat × Bool) → List SenderAction
  | [] => []
  | (msg, ok) :: rest => sender_cycle msg ok ++ sender_run rest

/-- The frames handed to `Nrf24_send` in an action trace, in order. -/
def transmittedFrames : List SenderAction → List (List Nat)
  | [] => []
  | .nrfSend f :: rest => f :: transmittedFrames rest
  | .memsetBuf :: rest => transmittedFrames rest
  | .recvMsg _ :: rest => transmittedFrames rest
  | .logOutcome _ :: rest => transmittedFrames rest

/-! ### Helper lemmas -/

/-- Once a terminal bit is set, the handler processes no further event
(the wait has returned and `wifi_init_sta` unregisters the handler). -/
theorem runAttach_of_terminal (m : Nat) (s : WifiState) (l : List WifiEvent)
    (h : terminalBits s = true) : runAttach m s l = s := by
  cases l <;> simp [runAttach, h]

theorem runAttach_append (m : Nat) (s : WifiState) (l₁ l₂ : List WifiEvent) :
    runAttach m s (l₁ ++ l₂) = runAttach m (runAttach m s l₁) l₂ := by
  induction l₁ generalizing s with
  | nil => rfl
  | cons e es ih =>
    by_cases h : terminalBits s
    · simp [runAttach, h, runAttach_of_terminal]
    · simp only [List.cons_append, runAttach, h, if_false, Bool.false_eq_true]
      exact ih _

/-- Processing `i` disconnects from a non-terminal state whose retry
counter has room for all of them: each one reconnects and increments. -/
theorem runAttach_disconnects (m : Nat) :
    ∀ (i r c : Nat) (rest : List WifiEvent), r + i ≤ m →
      runAttach m ⟨r, false, false, c⟩
          (List.replicate i .staDisconnected ++ rest) =
        runAttach m ⟨r + i, false, false, c + i⟩ rest := by
  intro i
  induction i with
  | zero => intro r c rest _; simp
  | succ n ih =>
    intro r c rest hle
    have hr : r < m := by omega
    simp only [List.replicate_succ, List.cons_append, runAttach,
      terminalBits, Bool.or_self, Bool.false_eq_true, if_false,
      event_handler, hr, if_true]
    have := ih (r + 1) (c + 1) rest (by omega)
    rw [List.append_eq, this]
    have h1 : r + 1 + n = r + (n + 1) := by omega
    have h2 : c + 1 + n = c + (n + 1) := by omega
    rw [h1, h2]

/-- The final handler state of a `wifi_init_sta` call that sees `k`
disconnects and then an address-acquired event. -/
theorem attach_final_state (m k : Nat) :
    runAttach m initWifiState (attachEvents k) =
      if k ≤ m then (⟨0, true, false, k⟩ : WifiState)
      else ⟨m, false, true, m⟩ := by
  by_cases hk : k ≤ m
  · rw [if_pos hk]
    unfold attachEvents initWifiState
    rw [runAttach_disconnects m k 0 0 _ (by omega)]
    simp [runAttach, terminalBits, event_handler]
  · rw [if_neg hk]
    have hmk : m < k := by omega
    have hsplit : List.replicate k WifiEvent.staDisconnected =
        List.replicate m WifiEvent.staDisconnected ++
          List.replicate (k - m) WifiEvent.staDisconnected := by
      rw [← List.replicate_add]
      congr 1
      omega
    unfold attachEvents initWifiState
    rw [hsplit, List.append_assoc,
      runAttach_disconnects m m 0 0 _ (by omega)]
    simp only [Nat.zero_add]
    have hpos : k - m = (k - m - 1) + 1 := by omega
    rw [hpos, List.replicate_succ, List.cons_append]
    simp only [runAttach, terminalBits, Bool.or_self, Bool.false_eq_true,
      if_false, event_handler]
    rw [if_neg (Nat.lt_irrefl m)]
    exact runAttach_of_terminal m ⟨m, false, true, m⟩ _ rfl

/-- `strlen` takes exactly the longest zero-free prefix. -/
theorem take_strlen (l : List Nat) :
    l.take (strlen l) = l.takeWhile (fun b => b ≠ 0) := by
  induction l with
  | nil => rfl
  | cons a t ih =>
    by_cases h : a = 0
    · simp [strlen, List.takeWhile_cons, h]
    · simpa [strlen, List.takeWhile_cons, h] using ih

/-! ### Claim theorems -/

/-- C1 (counterexample): the Receiver does not forward a drained frame
whole. For the 32-byte frame `[104, 105, 0, 106, 0, ...]` it sends only
the two bytes before the first zero byte (`strlen` of the payload), even
when the channel accepts the send, so the payload bytes after the zero
are lost and C-string structure is imposed on the payload. -/
theorem receiver_whole_frame_cex :
    ([104, 105, 0, 106] ++ List.replicate 28 0 : List Nat).length = 32 ∧
    (receiver_step true ([104, 105, 0, 106] ++ List.replicate 28 0)
        (strlen ([104, 105, 0, 106] ++ List.replicate 28 0))).sent =
      some [104, 105] ∧
    some [104, 105] ≠
      some ([104, 105, 0, 106] ++ List.replicate 28 0 : List Nat) := by
  decide

/-- C1 (amended): for every frame drained on a data-ready cycle, the
Receiver forwards — in a single send — exactly the longest zero-free
prefix of the frame (its C-string length via `strlen`), which is an
initial segment of the frame; bytes from the first zero byte onward are
discarded rather than forwarded. -/
theorem receiver_forwards_strlen_prefix (frame : List Nat) (sended : Nat) :
    (receiver_step true frame sended).sent =
      some (frame.takeWhile (fun b => b ≠ 0)) ∧
    ∃ rest, frame = frame.takeWhile (fun b => b ≠ 0) ++ rest := by
  constructor
  · simp [receiver_step, take_strlen]
  · exact ⟨frame.dropWhile (fun b => b ≠ 0),
      (List.takeWhile_append_dropWhile _ _).symm⟩

/-- C2 (counterexample): `query_mdns_host` does not report a not-found
name with a result value distinct from other query errors — both the
`ESP_ERR_NOT_FOUND` case and the other-error case return `ESP_FAIL`, so a
caller cannot branch on the return value. -/
theorem query_mdns_notfound_indistinct_cex :
    query_mdns_host .notFound = query_mdns_host .otherError ∧
    query_mdns_host .notFound = EspErr.fail := by decide

/-- C2 (amended): `query_mdns_host` collapses the not-found outcome and
any other query error into the same return value `ESP_FAIL`; the two are
distinguished only in the diagnostic log (a warning for not-found, an
error for other failures), not in the result a caller can branch on. -/
theorem query_mdns_collapses_to_fail :
    query_mdns_host .notFound = EspErr.fail ∧
    query_mdns_host .otherError = EspErr.fail ∧
    query_mdns_host_errLog .notFound = some LogLevel.warn ∧
    query_mdns_host_errLog .otherError = some LogLevel.error ∧
    query_mdns_host_errLog .notFound ≠ query_mdns_host_errLog .otherError := by
  decide

/-- C3 (counterexample): with `maxRetry = 1`, a sequence of `k = 1`
disconnect (so `k ≥ maxRetries`) followed by address-acquired reaches
success, not failure: the handler reconnects on every disconnect whose
retry counter is still below the maximum, so the fail bit is only set on
disconnect number `maxRetries + 1`. -/
theorem attach_k_eq_max_cex :
    1 ≥ 1 ∧ wifi_init_sta 1 (attachEvents 1) = some EspErr.ok ∧
    some EspErr.ok ≠ some EspErr.fail := by decide

/-- C3 (amended): for `k` disconnects followed by address-acquired,
starting from retry counter 0, the attach call succeeds when
`k ≤ maxRetries` and fails when `k > maxRetries`; the handler issues
exactly `min k maxRetries` connection attempts; and once a terminal bit
is set no later event is processed (appending any further events leaves
the handler state — including its connection-attempt count — unchanged),
so after Failed no further connection attempt is issued. -/
theorem attach_retry_boundary (m k : Nat) (extra : List WifiEvent) :
    wifi_init_sta m (attachEvents k) =
      some (if k ≤ m then EspErr.ok else EspErr.fail) ∧
    (runAttach m initWifiState (attachEvents k)).connectCalls = min k m ∧
    runAttach m initWifiState (attachEvents k ++ extra) =
      runAttach m initWifiState (attachEvents k) := by
  have hfin := attach_final_state m k
  refine ⟨?_, ?_, ?_⟩
  · by_cases hk : k ≤ m <;>
      simp [wifi_init_sta, hfin, hk, terminalBits, attach_result_bits]
  · by_cases hk : k ≤ m <;> simp [hfin, hk, Nat.min_def]
  · rw [runAttach_append, hfin]
    by_cases hk : k ≤ m <;>
      simp [hk, runAttach_of_terminal, terminalBits]

/-- C9: in the branch of `wifi_init_sta` on the bits returned by the
wait, `WIFI_CONNECTED_BIT` is tested first: when both the connected and
the fail bit are set the call reports `ESP_OK`, whereas with only the
fail bit set it reports `ESP_FAIL`. -/
theorem attach_connected_bit_precedence :
    attach_result_bits true true = EspErr.ok ∧
    attach_result_bits false true = EspErr.fail := by decide

/-- C4: if the input contains no occurrence of `".local"`, or the mDNS
resolution of the truncated prefix fails (`query_mdns_host` returned
`ESP_FAIL`, covering not-found, timeout, and other errors), then
`convert_mdns_host` leaves the output equal to the input. -/
theorem convert_mdns_host_fail_open (resolve : List Char → MdnsQueryResult)
    (s : List Char)
    (h : strstrIdx s localSuffix = none ∨
         ∃ idx, strstrIdx s localSuffix = some idx ∧
           query_mdns_host (resolve (s.take idx)) = EspErr.fail) :
    convert_mdns_host resolve s = s := by
  rcases h with h | ⟨idx, hidx, hfail⟩
  · simp [convert_mdns_host, h]
  · unfold convert_mdns_host
    rw [hidx]
    cases hr : resolve (s.take idx) <;> simp_all [query_mdns_host]

/-- C4 witness: `"broker.local"` with a resolver that reports not-found
comes back unchanged. -/
theorem convert_mdns_host_fail_open_witness :
    (strstrIdx "broker.local".toList localSuffix = some 6 ∧
     query_mdns_host ((fun _ => MdnsQueryResult.notFound)
       ("broker.local".toList.take 6)) = EspErr.fail) ∧
    convert_mdns_host (fun _ => MdnsQueryResult.notFound)
      "broker.local".toList = "broker.local".toList :=
  ⟨⟨by decide, by decide⟩,
   convert_mdns_host_fail_open _ _ (Or.inr ⟨6, by decide, by decide⟩)⟩

/-- C5 (counterexample): a text ending in `".local"` whose
suffix-stripped remainder resolves is not necessarily rewritten to the
resolved address: for `"a.localb.local"` with a resolver that maps the
remainder `"a.localb"` to `"10.0.0.5"`, `convert_mdns_host` truncates at
the first occurrence of `".local"`, queries only `"a"` (which does not
resolve), and returns the input instead of `"10.0.0.5"`. -/
theorem convert_trailing_suffix_cex :
    localSuffix.isSuffixOf "a.localb.local".toList = true ∧
    (fun t => if t = "a.localb".toList
              then MdnsQueryResult.found "10.0.0.5".toList
              else MdnsQueryResult.notFound)
      ("a.localb.local".toList.take
        ("a.localb.local".toList.length - localSuffix.length)) =
      MdnsQueryResult.found "10.0.0.5".toList ∧
    convert_mdns_host
      (fun t => if t = "a.localb".toList
                then MdnsQueryResult.found "10.0.0.5".toList
                else MdnsQueryResult.notFound)
      "a.localb.local".toList ≠ "10.0.0.5".toList := by decide

/-- C5 (amended): for every input of the form `p ++ ".local"` whose
FIRST occurrence of `".local"` is that trailing suffix, if `p` resolves
then `convert_mdns_host` strips the suffix and substitutes the resolved
address; in particular `"broker.local"` with a resolver returning
`"10.0.0.5"` for `"broker"` yields `"10.0.0.5"` (witness below). -/
theorem convert_resolves_trailing_suffix
    (resolve : List Char → MdnsQueryResult) (p addr : List Char)
    (hfirst : strstrIdx (p ++ localSuffix) localSuffix = some p.length)
    (hres : resolve p = .found addr) :
    convert_mdns_host resolve (p ++ localSuffix) = addr := by
  simp only [convert_mdns_host, hfirst, List.take_left, hres]

/-- C5 witness: `"broker" ++ ".local"` with a resolver mapping
`"broker"` to `"10.0.0.5"` rewrites to `"10.0.0.5"`. -/
theorem convert_resolves_trailing_suffix_witness :
    (strstrIdx ("broker".toList ++ localSuffix) localSuffix =
       some ("broker".toList).length ∧
     (fun t => if t = "broker".toList
               then MdnsQueryResult.found "10.0.0.5".toList
               else MdnsQueryResult.notFound) "broker".toList =
       MdnsQueryResult.found "10.0.0.5".toList) ∧
    convert_mdns_host
      (fun t => if t = "broker".toList
                then MdnsQueryResult.found "10.0.0.5".toList
                else MdnsQueryResult.notFound)
      ("broker".toList ++ localSuffix) = "10.0.0.5".toList :=
  ⟨⟨by decide, by decide⟩,
   convert_resolves_trailing_suffix _ _ _ (by decide) (by decide)⟩

/-- C8: whenever `".local"` occurs in the input (first occurrence at
`idx`) and the part before it resolves, `convert_mdns_host` replaces the
ENTIRE output with the resolved address, discarding everything at and
after the `".local"` occurrence (e.g. a `":port"` tail — witness below). -/
theorem convert_truncates_at_first_local
    (resolve : List Char → MdnsQueryResult) (s : List Char) (idx : Nat)
    (addr : List Char)
    (hidx : strstrIdx s localSuffix = some idx)
    (hres : resolve (s.take idx) = .found addr) :
    convert_mdns_host resolve s = addr := by
  simp only [convert_mdns_host, hidx, hres]

/-- C8 witness: `"broker.local:1883"` rewrites to `"10.0.0.5"` — the
`":1883"` tail after the first `".local"` is lost. -/
theorem convert_truncates_at_first_local_witness :
    (strstrIdx "broker.local:1883".toList localSuffix = some 6 ∧
     (fun t => if t = "broker".toList
               then MdnsQueryResult.found "10.0.0.5".toList
               else MdnsQueryResult.notFound)
       ("broker.local:1883".toList.take 6) =
       MdnsQueryResult.found "10.0.0.5".toList) ∧
    convert_mdns_host
      (fun t => if t = "broker".toList
                then MdnsQueryResult.found "10.0.0.5".toList
                else MdnsQueryResult.notFound)
      "broker.local:1883".toList = "10.0.0.5".toList :=
  ⟨⟨by decide, by decide⟩,
   convert_truncates_at_first_local _ _ 6 _ (by decide) (by decide)⟩

/-- C6: whenever `xMessageBufferSend` returns fewer bytes than the
message length `strlen frame`, the Receiver's loop does not continue: it
breaks out of its main loop (after which the task deletes itself) rather
than dropping the message and carrying on. -/
theorem receiver_short_send_stops (frame : List Nat) (sended : Nat)
    (h : sended < strlen frame) :
    (receiver_step true frame sended).next = false := by
  simp [receiver_step]
  omega

/-- C6 witness: a frame of C-string length 1 whose send returned 0 bytes
stops the Receiver loop. -/
theorem receiver_short_send_stops_witness :
    0 < strlen ([42] ++ List.replicate 31 0) ∧
    (receiver_step true ([42] ++ List.replicate 31 0) 0).next = false :=
  ⟨by decide, receiver_short_send_stops _ 0 (by decide)⟩

/-- C7: over any sequence of cycles (each a received message paired with
the transmit-completion outcome `Nrf24_isSend` reports), the Sender hands
exactly one frame per message to the transceiver, in order, independent
of the success/failure outcomes — so a failed transmission is never
retried and never ends the loop, every later message still being
transmitted — and each cycle records its outcome in the log. -/
theorem sender_transmits_every_cycle (cycles : List (List Nat × Bool))
    (msg : List Nat) (ok : Bool) :
    transmittedFrames (sender_run cycles) =
      cycles.map (fun p => sender_frame p.1) ∧
    SenderAction.logOutcome ok ∈ sender_cycle msg ok ∧
    transmittedFrames (sender_cycle msg ok) = [sender_frame msg] := by
  refine ⟨?_, ?_, rfl⟩
  · induction cycles with
    | nil => rfl
    | cons c rest ih =>
      cases c
      simp [sender_run, sender_cycle, transmittedFrames, ih]
  · simp [sender_cycle]

/-- C10: for every received message that fits in the item size, the frame
the Sender hands to `Nrf24_send` is the message padded with zero bytes to
the full 32-byte item size (the buffer is `memset` to zero before
`xMessageBufferReceive` overwrites its front). -/
theorem sender_zero_pads (msg : List Nat) (h : msg.length ≤ xItemSize) :
    sender_frame msg = msg ++ List.replicate (xItemSize - msg.length) 0 ∧
    (sender_frame msg).length = xItemSize := by
  constructor
  · simp [sender_frame, writeInto, List.drop_replicate]
  · simp only [sender_frame, writeInto, List.drop_replicate,
      List.length_append, List.length_replicate]
    omega

/-- C10 witness: the 3-byte message `[1, 2, 3]` becomes a 32-byte frame
padded with 29 zero bytes. -/
theorem sender_zero_pads_witness :
    ([1, 2, 3] : List Nat).length ≤ xItemSize ∧
    (sender_frame [1, 2, 3] =
       [1, 2, 3] ++ List.replicate (xItemSize - ([1, 2, 3] : List Nat).length) 0 ∧
     (sender_frame [1, 2, 3]).length = xItemSize) :=
  ⟨by decide, sender_zero_pads [1, 2, 3] (by decide)⟩

end Mirf
